import Mathlib

/-!
# vk-s3-test: transport, digest and S3 destination keys

A shallow embedding of `transport.go` and `awss3.go`.

Go strings and byte slices are sequences of bytes, so both are modelled as
`List Byte` with `Byte = Fin 256`; byte arithmetic is the modular arithmetic of
`Fin 256`.  A Go `error` value is `Option Error`, `none` standing for `nil`.
A Go function returning `(T, error)` is modelled as returning the pair, since the
source returns a value next to every error.
-/

namespace VkS3

/-- One Go `byte`. -/
abbrev Byte := Fin 256

/-- Go `string` (and `[]byte`): a sequence of bytes. -/
abbrev GoString := List Byte

/-- UTF-8 encoding of one code point, used to write Go string literals. -/
def utf8 (c : Char) : GoString :=
  let n := c.toNat
  if n < 0x80 then [Fin.ofNat n]
  else if n < 0x800 then [Fin.ofNat (0xC0 + n / 64), Fin.ofNat (0x80 + n % 64)]
  else if n < 0x10000 then
    [Fin.ofNat (0xE0 + n / 4096), Fin.ofNat (0x80 + n / 64 % 64), Fin.ofNat (0x80 + n % 64)]
  else
    [Fin.ofNat (0xF0 + n / 262144), Fin.ofNat (0x80 + n / 4096 % 64),
      Fin.ofNat (0x80 + n / 64 % 64), Fin.ofNat (0x80 + n % 64)]

/-- The bytes of a Go string literal. -/
def str (s : String) : GoString := (s.data.map utf8).flatten

/-! ## encoding/hex -/

/-- Errors of `encoding/hex`. -/
inductive HexError where
  | ErrLength
  | InvalidByteError (b : Byte)
  deriving DecidableEq, Repr

/-- The constant `hextable` of `encoding/hex`. -/
def hextable : GoString := str "0123456789abcdef"

/-- Go `hex.EncodeToString`: two characters `hextable[v>>4]`, `hextable[v&0x0f]` per byte. -/
def EncodeToString : List Byte → GoString
  | [] => []
  | v :: rest =>
    hextable.getD (v.val >>> 4) 0 :: hextable.getD (v.val &&& 0x0f) 0 :: EncodeToString rest

/-- Go `hex.fromHexChar` (the contents of `reverseHexTable`). -/
def fromHexChar (c : Byte) : Option Byte :=
  if 48 ≤ c.val ∧ c.val ≤ 57 then some (c - 48)            -- '0' .. '9'
  else if 97 ≤ c.val ∧ c.val ≤ 102 then some (c - 97 + 10)  -- 'a' .. 'f'
  else if 65 ≤ c.val ∧ c.val ≤ 70 then some (c - 65 + 10)   -- 'A' .. 'F'
  else none

/-- Go `hex.Decode` followed by the slicing `src[:n]` of `hex.DecodeString`: the bytes decoded
before the first problem, and the error.  An invalid character is reported before a bad
length. -/
def DecodeString : GoString → List Byte × Option HexError
  | p :: q :: rest =>
    match fromHexChar p with
    | none => ([], some (.InvalidByteError p))
    | some a =>
      match fromHexChar q with
      | none => ([], some (.InvalidByteError q))
      | some b =>
        let r := DecodeString rest
        (((a <<< (4 : Byte)) ||| b) :: r.1, r.2)
  | [p] =>
    match fromHexChar p with
    | none => ([], some (.InvalidByteError p))
    | some _ => ([], some .ErrLength)
  | [] => ([], none)

/-! ## transport.go -/

/-- Go `error` values that the program produces or passes on. -/
inductive Error where
  /-- The package variable `ErrNoSuchKey`. -/
  | ErrNoSuchKey
  /-- A value made by `fmt.Errorf` or `errors.New` with the given text. -/
  | errorString (msg : String)
  /-- An error of `encoding/hex`. -/
  | hex (e : HexError)
  /-- An error made outside the program (SDK, network, file system), identified by a tag. -/
  | external (tag : Nat)
  deriving DecidableEq, Repr

/-- Go `type Digest struct { sum []byte }`.  A nil and an empty slice are both `[]`. -/
structure Digest where
  sum : List Byte
  deriving DecidableEq, Repr

/-- Go `type File struct`. -/
structure File where
  Size : Int
  Path : GoString
  ChSum : Digest
  deriving DecidableEq, Repr

/-- Go `NewDigestString`. -/
def NewDigestString (ds : GoString) : Digest × Option Error :=
  match DecodeString ds with
  | (_, some err) => ({ sum := [] }, some (.hex err))
  | (d, none) => ({ sum := d }, none)

/-- Go `(*Digest).String`. -/
def Digest.String (d : Digest) : GoString := EncodeToString d.sum

/-! ## strings, path, path/filepath -/

/-- Go `strings.HasPrefix`. -/
def HasPrefix (s pre : GoString) : Bool := pre.isPrefixOf s

/-- The inner loop of the `..` case of `path.Clean`: `out.w--` has been done by the caller,
then `for out.w > dotdot && out.index(out.w) != '/' { out.w-- }`.  Returns the final `out.w`. -/
def cleanBacktrack (out : GoString) (dotdot : Nat) : Nat → Nat
  | 0 => 0
  | w + 1 => if w + 1 > dotdot ∧ out[w + 1]? ≠ some 47 then cleanBacktrack out dotdot w else w + 1

/-- The main loop `for r < n` of `path.Clean`.  `out` is the written part of the buffer
(`out.w` is its length), `r` the read index; each round advances `r`, so `n - r` rounds of
fuel are enough. -/
def cleanLoop (path : GoString) (rooted : Bool) : Nat → Nat → GoString → Nat → GoString
  | 0, _, out, _ => out
  | fuel + 1, r, out, dotdot =>
    let n := path.length
    if r < n then
      if path[r]? = some 47 then
        -- empty path element
        cleanLoop path rooted fuel (r + 1) out dotdot
      else if path[r]? = some 46 ∧ (r + 1 = n ∨ path[r + 1]? = some 47) then
        -- . element
        cleanLoop path rooted fuel (r + 1) out dotdot
      else if path[r]? = some 46 ∧ path[r + 1]? = some 46 ∧
          (r + 2 = n ∨ path[r + 2]? = some 47) then
        -- .. element: remove to last /
        if out.length > dotdot then
          cleanLoop path rooted fuel (r + 2)
            (out.take (cleanBacktrack out dotdot (out.length - 1))) dotdot
        else if !rooted then
          let out1 := (if out.length > 0 then out ++ [47] else out) ++ [46, 46]
          cleanLoop path rooted fuel (r + 2) out1 out1.length
        else
          cleanLoop path rooted fuel (r + 2) out dotdot
      else
        -- real path element: add slash if needed, copy element
        let out1 :=
          if (rooted && out.length != 1) || (!rooted && out.length != 0) then out ++ [47] else out
        let el := (path.drop r).takeWhile (fun c => c != 47)
        cleanLoop path rooted fuel (r + el.length) (out1 ++ el) dotdot
    else out

/-- Go `path.Clean`. -/
def Clean (path : GoString) : GoString :=
  if path = [] then str "." else
    let rooted := decide (path[0]? = some 47)
    let out :=
      if rooted then cleanLoop path rooted path.length 1 [47] 1
      else cleanLoop path rooted path.length 0 [] 0
    if out.length = 0 then str "." else out

/-- Go `path.Join`. -/
def Join (el : List GoString) : GoString :=
  if (el.map List.length).sum = 0 then []
  else
    Clean (el.foldl (fun buf e =>
      if buf.length > 0 ∨ e ≠ [] then (if buf.length > 0 then buf ++ [47] else buf) ++ e
      else buf) [])

/-- Go `path.Base`. -/
def Base (path : GoString) : GoString :=
  if path = [] then str "." else
    -- strip trailing slashes
    let p1 := (path.reverse.dropWhile (fun c => c == 47)).reverse
    -- find the last element
    let p2 := (p1.reverse.takeWhile (fun c => c != 47)).reverse
    -- if empty now, it had only slashes
    if p2 = [] then str "/" else p2

/-- Go `strings.HasSuffix`. -/
def HasSuffix (s suf : GoString) : Bool := suf.isSuffixOf s

/-- Go `strings.Index`; `none` stands for `-1`. -/
def Index (s sub : GoString) : Option Nat :=
  if sub.isPrefixOf s then some 0
  else
    match s with
    | [] => none
    | _ :: t => (Index t sub).map (fun i => i + 1)

/-- Go `strings.LastIndex`; `none` stands for `-1`. -/
def LastIndex (s sub : GoString) : Option Nat :=
  match s with
  | [] => if sub = [] then some 0 else none
  | c :: t =>
    match LastIndex t sub with
    | some i => some (i + 1)
    | none => if sub.isPrefixOf (c :: t) then some 0 else none

/-- Go `strings.Contains`. -/
def Contains (s sub : GoString) : Bool := (Index s sub).isSome

/-- Go `strings.Cut`. -/
def Cut (s sep : GoString) : GoString × GoString × Bool :=
  match Index s sep with
  | some i => (s.take i, s.drop (i + sep.length), true)
  | none => (s, [], false)

/-- Go `strings.ToLower` on ASCII text, which is all `net/url` applies it to (a scheme
accepted by `getScheme` holds only ASCII letters, digits, `+`, `-` and `.`). -/
def ToLower (s : GoString) : GoString :=
  s.map (fun c => if 65 ≤ c.val ∧ c.val ≤ 90 then c + 32 else c)

/-! ## net/url (Go 1.22): `url.Parse`

`GetDest` reads only whether `url.Parse` fails and, when it does not, `URL.Path`.  The fields
`RawPath` and `RawFragment` are hints computed after every check has passed; they are left
out of the record. -/

/-- The errors `url.Parse` wraps in `*url.Error`. -/
inductive UrlError where
  | invalidControlCharacter
  | missingProtocolScheme
  | firstPathSegmentColon
  | missingBracketInHost
  | invalidPort (colonPort : GoString)
  | invalidUserinfo
  | EscapeError (s : GoString)
  | InvalidHostError (s : GoString)
  deriving DecidableEq, Repr

/-- Go `url.Userinfo`. -/
structure Userinfo where
  username : GoString
  password : GoString
  passwordSet : Bool
  deriving DecidableEq, Repr

/-- Go `url.URL`, without `RawPath` and `RawFragment`. -/
structure URL where
  Scheme : GoString := []
  Opaque : GoString := []
  User : Option Userinfo := none
  Host : GoString := []
  Path : GoString := []
  OmitHost : Bool := false
  ForceQuery : Bool := false
  RawQuery : GoString := []
  Fragment : GoString := []
  deriving DecidableEq, Repr

/-- The `encoding` modes of `net/url`. -/
inductive Encoding where
  | encodePath
  | encodePathSegment
  | encodeHost
  | encodeZone
  | encodeUserPassword
  | encodeQueryComponent
  | encodeFragment
  deriving DecidableEq, Repr

/-- Go `url.ishex`. -/
def ishex (c : Byte) : Bool :=
  (48 ≤ c.val ∧ c.val ≤ 57) ∨ (97 ≤ c.val ∧ c.val ≤ 102) ∨ (65 ≤ c.val ∧ c.val ≤ 70)

/-- Go `url.unhex`. -/
def unhex (c : Byte) : Byte :=
  if 48 ≤ c.val ∧ c.val ≤ 57 then c - 48
  else if 97 ≤ c.val ∧ c.val ≤ 102 then c - 97 + 10
  else if 65 ≤ c.val ∧ c.val ≤ 70 then c - 65 + 10
  else 0

/-- Go `url.shouldEscape`. -/
def shouldEscape (c : Byte) (mode : Encoding) : Bool :=
  -- unreserved characters (alphanum)
  if (97 ≤ c.val ∧ c.val ≤ 122) ∨ (65 ≤ c.val ∧ c.val ≤ 90) ∨ (48 ≤ c.val ∧ c.val ≤ 57) then false
  -- host: ! $ & ' ( ) * + , ; = : [ ] < > "
  else if (mode = .encodeHost ∨ mode = .encodeZone) ∧
      c ∈ ([33, 36, 38, 39, 40, 41, 42, 43, 44, 59, 61, 58, 91, 93, 60, 62, 34] : List Byte) then
    false
  -- unreserved characters (mark): - _ . ~
  else if c ∈ ([45, 95, 46, 126] : List Byte) then false
  -- reserved characters: $ & + , / : ; = ? @
  else if c ∈ ([36, 38, 43, 44, 47, 58, 59, 61, 63, 64] : List Byte) ∧
      (mode = .encodePath ∨ mode = .encodePathSegment ∨ mode = .encodeUserPassword ∨
        mode = .encodeQueryComponent ∨ mode = .encodeFragment) then
    match mode with
    | .encodePath => c = 63
    | .encodePathSegment => c = 47 ∨ c = 59 ∨ c = 44 ∨ c = 63
    | .encodeUserPassword => c = 64 ∨ c = 47 ∨ c = 63 ∨ c = 58
    | .encodeQueryComponent => true
    | _ => false
  -- fragment: ! ( ) *
  else if mode = .encodeFragment ∧ c ∈ ([33, 40, 41, 42] : List Byte) then false
  -- everything else must be escaped
  else true

/-- The first loop of Go `url.unescape`: checks that every `%` is well formed and, for a
host or zone, that no byte is forbidden.  `none` when the checks pass. -/
def unescapeCheck (mode : Encoding) : GoString → Option UrlError
  | [] => none
  | c :: rest =>
    if c = 37 then
      match rest with
      | h1 :: h2 :: rest2 =>
        if !ishex h1 || !ishex h2 then some (.EscapeError [c, h1, h2])
        else if mode = .encodeHost ∧ (unhex h1).val < 8 ∧ [c, h1, h2] ≠ str "%25" then
          some (.EscapeError [c, h1, h2])
        else if mode = .encodeZone ∧ [c, h1, h2] ≠ str "%25" ∧
            ((unhex h1 <<< (4 : Byte)) ||| unhex h2) ≠ 32 ∧
            shouldEscape ((unhex h1 <<< (4 : Byte)) ||| unhex h2) .encodeHost then
          some (.EscapeError [c, h1, h2])
        else unescapeCheck mode rest2
      | _ => some (.EscapeError ((c :: rest).take 3))
    else if c = 43 then unescapeCheck mode rest
    else if (mode = .encodeHost ∨ mode = .encodeZone) ∧ c.val < 0x80 ∧
        shouldEscape c .encodeHost then
      some (.InvalidHostError [c])
    else unescapeCheck mode rest

/-- The second loop of Go `url.unescape`, run on a string that passed the checks. -/
def unescapeDecode (mode : Encoding) : GoString → GoString
  | [] => []
  | c :: rest =>
    if c = 37 then
      match rest with
      | h1 :: h2 :: rest2 => ((unhex h1 <<< (4 : Byte)) ||| unhex h2) :: unescapeDecode mode rest2
      | _ => []
    else if c = 43 then
      (if mode = .encodeQueryComponent then 32 else 43) :: unescapeDecode mode rest
    else c :: unescapeDecode mode rest

/-- Go `url.unescape`. -/
def unescape (s : GoString) (mode : Encoding) : Except UrlError GoString :=
  match unescapeCheck mode s with
  | some e => .error e
  | none => .ok (unescapeDecode mode s)

/-- Go `url.stringContainsCTLByte`. -/
def stringContainsCTLByte (s : GoString) : Bool :=
  s.any (fun b => b.val < 32 || b.val == 0x7f)

/-- The loop of Go `url.getScheme`, at index `i` with `rest = rawURL[i:]`. -/
def getSchemeLoop (rawURL : GoString) : Nat → GoString → Except UrlError (GoString × GoString)
  | _, [] => .ok ([], rawURL)
  | i, c :: rest =>
    if (97 ≤ c.val ∧ c.val ≤ 122) ∨ (65 ≤ c.val ∧ c.val ≤ 90) then
      getSchemeLoop rawURL (i + 1) rest
    else if (48 ≤ c.val ∧ c.val ≤ 57) ∨ c = 43 ∨ c = 45 ∨ c = 46 then
      if i = 0 then .ok ([], rawURL) else getSchemeLoop rawURL (i + 1) rest
    else if c = 58 then
      if i = 0 then .error .missingProtocolScheme
      else .ok (rawURL.take i, rawURL.drop (i + 1))
    else
      -- an invalid character, so there is no valid scheme
      .ok ([], rawURL)

/-- Go `url.getScheme`: `(scheme, path)` or an error. -/
def getScheme (rawURL : GoString) : Except UrlError (GoString × GoString) :=
  getSchemeLoop rawURL 0 rawURL

/-- Go `url.validOptionalPort`. -/
def validOptionalPort (port : GoString) : Bool :=
  match port with
  | [] => true
  | c :: rest => c == 58 && rest.all (fun b => 48 ≤ b.val && b.val ≤ 57)

/-- Go `url.validUserinfo`. -/
def validUserinfo (s : GoString) : Bool :=
  s.all (fun r =>
    (65 ≤ r.val ∧ r.val ≤ 90) ∨ (97 ≤ r.val ∧ r.val ≤ 122) ∨ (48 ≤ r.val ∧ r.val ≤ 57) ∨
      -- - . _ : ~ ! $ & ' ( ) * + , ; = % @
      r ∈ ([45, 46, 95, 58, 126, 33, 36, 38, 39, 40, 41, 42, 43, 44, 59, 61, 37, 64] : List Byte))

/-- Go `url.parseHost`. -/
def parseHost (host : GoString) : Except UrlError GoString :=
  if HasPrefix host (str "[") then
    -- an IP-literal, as "[fe80::1]", "[fe80::1%25en0]", "[fe80::1]:80"
    match LastIndex host (str "]") with
    | none => .error .missingBracketInHost
    | some i =>
      let colonPort := host.drop (i + 1)
      if !validOptionalPort colonPort then .error (.invalidPort colonPort)
      else
        match Index (host.take i) (str "%25") with
        | some zone =>
          match unescape (host.take zone) .encodeHost with
          | .error e => .error e
          | .ok host1 =>
            match unescape ((host.take i).drop zone) .encodeZone with
            | .error e => .error e
            | .ok host2 =>
              match unescape (host.drop i) .encodeHost with
              | .error e => .error e
              | .ok host3 => .ok (host1 ++ host2 ++ host3)
        | none => unescape host .encodeHost
  else
    match LastIndex host (str ":") with
    | some i =>
      let colonPort := host.drop i
      if !validOptionalPort colonPort then .error (.invalidPort colonPort)
      else unescape host .encodeHost
    | none => unescape host .encodeHost

/-- Go `url.parseAuthority`: `(user, host)` or an error. -/
def parseAuthority (authority : GoString) : Except UrlError (Option Userinfo × GoString) :=
  let i := LastIndex authority (str "@")
  let hostPart :=
    match i with
    | none => authority
    | some i => authority.drop (i + 1)
  match parseHost hostPart with
  | .error e => .error e
  | .ok host =>
    match i with
    | none => .ok (none, host)
    | some i =>
      let userinfo := authority.take i
      if !validUserinfo userinfo then .error .invalidUserinfo
      else if !Contains userinfo (str ":") then
        match unescape userinfo .encodeUserPassword with
        | .error e => .error e
        | .ok u => .ok (some { username := u, password := [], passwordSet := false }, host)
      else
        let c := Cut userinfo (str ":")
        match unescape c.1 .encodeUserPassword with
        | .error e => .error e
        | .ok username =>
          match unescape c.2.1 .encodeUserPassword with
          | .error e => .error e
          | .ok password =>
            .ok (some { username := username, password := password, passwordSet := true }, host)

/-- Go `url.parse(rawURL, viaRequest)` as `url.Parse` calls it, with `viaRequest = false`. -/
def parse (rawURL : GoString) : Except UrlError URL :=
  if stringContainsCTLByte rawURL then .error .invalidControlCharacter
  else if rawURL = str "*" then .ok { Path := str "*" }
  else
    match getScheme rawURL with
    | .error e => .error e
    | .ok (scheme0, rest0) =>
      let scheme := ToLower scheme0
      let forceQuery := HasSuffix rest0 (str "?") && rest0.count 63 == 1
      let rest1 := if forceQuery then rest0.dropLast else (Cut rest0 (str "?")).1
      let rawQuery := if forceQuery then [] else (Cut rest0 (str "?")).2.1
      if !HasPrefix rest1 (str "/") ∧ scheme ≠ [] then
        -- rootless paths are opaque
        .ok { Scheme := scheme, Opaque := rest1, ForceQuery := forceQuery, RawQuery := rawQuery }
      else if !HasPrefix rest1 (str "/") ∧ Contains (Cut rest1 (str "/")).1 (str ":") then
        -- first path segment has colon: not allowed in a relative URL
        .error .firstPathSegmentColon
      else if (scheme ≠ [] ∨ !HasPrefix rest1 (str "///")) ∧ HasPrefix rest1 (str "//") then
        let authority0 := rest1.drop 2
        let authority :=
          match Index authority0 (str "/") with
          | some i => authority0.take i
          | none => authority0
        let rest2 :=
          match Index authority0 (str "/") with
          | some i => authority0.drop i
          | none => []
        match parseAuthority authority with
        | .error e => .error e
        | .ok (user, host) =>
          match unescape rest2 .encodePath with
          | .error e => .error e
          | .ok path =>
            .ok { Scheme := scheme, User := user, Host := host, Path := path,
                  ForceQuery := forceQuery, RawQuery := rawQuery }
      else
        match unescape rest1 .encodePath with
        | .error e => .error e
        | .ok path =>
          .ok { Scheme := scheme, Path := path,
                OmitHost := decide (scheme ≠ []) && HasPrefix rest1 (str "/"),
                ForceQuery := forceQuery, RawQuery := rawQuery }

/-- Go `url.Parse`: cut off the fragment, parse, then set the fragment. -/
def Parse (rawURL : GoString) : Except UrlError URL :=
  let c := Cut rawURL (str "#")
  match parse c.1 with
  | .error e => .error e
  | .ok url =>
    if c.2.1 = [] then .ok url
    else
      match unescape c.2.1 .encodeFragment with
      | .error e => .error e
      | .ok frag => .ok { url with Fragment := frag }

/-- Go `filepath.Ext` where the path separator is `/`: the loop examines index `i` when called
with `i + 1`, from `len(path) - 1` downwards. -/
def extLoop (path : GoString) : Nat → GoString
  | 0 => []
  | i + 1 =>
    if path[i]? = some 47 then []
    else if path[i]? = some 46 then path.drop i
    else extLoop path i

/-- Go `filepath.Ext`. -/
def Ext (path : GoString) : GoString := extLoop path path.length

/-! ## encoding/base64 -/

/-- The alphabet of `base64.StdEncoding`. -/
def encodeStd : GoString :=
  str "ABCDEFGHIJKLMNOPQRSTUVWXYZabcdefghijklmnopqrstuvwxyz0123456789+/"

/-- Go `base64.StdEncoding.EncodeToString`, with `=` padding. -/
def base64EncodeToString : List Byte → GoString
  | a :: b :: c :: rest =>
    let v := a.val <<< 16 ||| b.val <<< 8 ||| c.val
    encodeStd.getD (v >>> 18 &&& 0x3f) 0 :: encodeStd.getD (v >>> 12 &&& 0x3f) 0 ::
      encodeStd.getD (v >>> 6 &&& 0x3f) 0 :: encodeStd.getD (v &&& 0x3f) 0 ::
      base64EncodeToString rest
  | [a, b] =>
    let v := a.val <<< 16 ||| b.val <<< 8
    [encodeStd.getD (v >>> 18 &&& 0x3f) 0, encodeStd.getD (v >>> 12 &&& 0x3f) 0,
      encodeStd.getD (v >>> 6 &&& 0x3f) 0, 61]
  | [a] =>
    let v := a.val <<< 16
    [encodeStd.getD (v >>> 18 &&& 0x3f) 0, encodeStd.getD (v >>> 12 &&& 0x3f) 0, 61, 61]
  | [] => []

/-- Go `(*Digest).Base64`. -/
def Digest.Base64 (d : Digest) : GoString := base64EncodeToString d.sum

/-! ## transport.go: `Copy` -/

/-- The order in which the results of the two goroutines arrive on the channel `ch`. -/
inductive Delivery where
  | putFirst
  | getFirst
  deriving DecidableEq, Repr

/-- The values received from `ch`: each goroutine sends its result exactly once, and `ch` is closed
after both are done. -/
def delivered (order : Delivery) (ePut eGet : Option Error) : List (Option Error) :=
  match order with
  | .putFirst => [ePut, eGet]
  | .getFirst => [eGet, ePut]

/-- The receive loop of `Copy`: `for err := range ch { if err != nil { return err } }`, then
`return nil`. -/
def drain : List (Option Error) → Option Error
  | [] => none
  | err :: rest => if err ≠ none then err else drain rest

/-- Go `Copy`, as a function of the results `ePut` of `to.Put` and `eGet` of `from.Get` and of
the order in which the channel delivers them. -/
def Copy (order : Delivery) (ePut eGet : Option Error) : Option Error :=
  drain (delivered order ePut eGet)

/-! ## awss3.go -/

/-- The `aws.Config` that `config.LoadDefaultConfig` resolves. -/
structure Config where
  BaseEndpoint : GoString
  Region : GoString
  AccessKeyID : GoString
  SecretAccessKey : GoString
  deriving DecidableEq, Repr

/-- The `*as3.Client` made by `as3.NewFromConfig(cfg, opts...)`. -/
structure Client where
  cfg : Config
  UsePathStyle : Bool
  deriving DecidableEq, Repr

/-- Go `type S3 struct`; `c = none` is the nil client pointer. -/
structure S3 where
  endpoint : GoString := []
  bucket : GoString := []
  bucketPrefix : GoString := []
  accessKeyID : GoString := []
  secretAccessKey : GoString := []
  region : GoString := []
  secure : Bool := false
  flatten : Bool := false
  publicRead : Bool := false
  pathStyle : Bool := false
  c : Option Client := none
  deriving DecidableEq, Repr

/-- Go `as3.GetObjectInput`, the fields the program sets. -/
structure GetObjectInput where
  Bucket : GoString
  Key : GoString
  deriving DecidableEq, Repr

/-- Go `as3.GetObjectOutput`, the fields the program reads: the body stream (a handle) and the
pointer `ContentLength`, `none` when nil. -/
structure GetObjectOutput where
  Body : Nat
  ContentLength : Option Int
  deriving DecidableEq, Repr

/-- Go `as3.PutObjectInput`, the fields the program sets; `Body` is a handle of the reader. -/
structure PutObjectInput where
  Bucket : GoString
  Key : GoString
  ACL : String
  ChecksumAlgorithm : String
  ChecksumSHA256 : GoString
  Body : Nat
  ContentType : GoString
  deriving DecidableEq, Repr

/-- An error returned by the SDK, with the answer of `errors.As(err, &NoSuchKeyError)`. -/
structure SdkError where
  err : Error
  asNoSuchKey : Bool
  deriving DecidableEq, Repr

/-- What lies outside the program: the AWS SDK, the object store behind it, `io.Copy` on the
streams involved, and the MIME table of the host. -/
structure World where
  /-- `config.LoadDefaultConfig` with the base endpoint, region and static credentials. -/
  LoadDefaultConfig : GoString → GoString → GoString → GoString → Except Error Config
  /-- `(*as3.Client).GetObject`. -/
  GetObject : Client → GetObjectInput → Except SdkError GetObjectOutput
  /-- `(*as3.Client).PutObject`; only its error is read. -/
  PutObject : Client → PutObjectInput → Option Error
  /-- `io.Copy(dst, src)` on a writer handle and a body handle: bytes written and error. -/
  ioCopy : Nat → Nat → Int × Option Error
  /-- `mime.TypeByExtension`. -/
  TypeByExtension : GoString → GoString

/-- How a call ends: it returns an `error` value, or the goroutine panics on a nil pointer
dereference. -/
inductive Outcome where
  | returned (err : Option Error)
  | panicked
  deriving DecidableEq, Repr

/-- Go `New`. -/
def New (endpoint bucket : GoString) : S3 := { endpoint := endpoint, bucket := bucket }

/-- Go `(*S3).SetPrefix`. -/
def S3.SetPrefix (s3 : S3) (p : GoString) : S3 := { s3 with bucketPrefix := p }

/-- Go `(*S3).SetFlatten`. -/
def S3.SetFlatten (s3 : S3) (f : Bool) : S3 := { s3 with flatten := f }

/-- Go `(*S3).SetPublicRead`. -/
def S3.SetPublicRead (s3 : S3) (p : Bool) : S3 := { s3 with publicRead := p }

/-- Go `(*S3).SetPathStyle`. -/
def S3.SetPathStyle (s3 : S3) (ps : Bool) : S3 := { s3 with pathStyle := ps }

/-- Go `(*S3).SetRegion`. -/
def S3.SetRegion (s3 : S3) (r : GoString) : S3 := { s3 with region := r }

/-- Go `(*S3).SetCreds`. -/
def S3.SetCreds (s3 : S3) (keyID secret : GoString) : S3 :=
  { s3 with accessKeyID := keyID, secretAccessKey := secret }

/-- Go `(*S3).Connect`: the returned error and the instance afterwards. -/
def S3.Connect (w : World) (s3 : S3) : Option Error × S3 :=
  if s3.endpoint = [] ∨ s3.bucket = [] ∨ s3.accessKeyID = [] ∨ s3.secretAccessKey = [] then
    (some (.errorString "Missing required parameters"), s3)
  else
    match w.LoadDefaultConfig s3.endpoint s3.region s3.accessKeyID s3.secretAccessKey with
    | .error _ => (none, s3)
    | .ok cfg => (none, { s3 with c := some { cfg := cfg, UsePathStyle := s3.pathStyle } })

/-- Go `(*S3).Check`: the returned error and the instance afterwards. -/
def S3.Check (w : World) (s3 : S3) : Option Error × S3 :=
  if s3.c = none then s3.Connect w else (none, s3)

/-- Go `(*S3).GetDest`. -/
def S3.GetDest (s3 : S3) (file : File) : GoString :=
  if s3.flatten then Join [s3.bucketPrefix, Base file.Path]
  else if HasPrefix file.Path (str "http://") || HasPrefix file.Path (str "https://") ||
      HasPrefix file.Path (str "oci://") then
    match Parse file.Path with
    | .error _ => Join [s3.bucketPrefix, Base file.Path]
    | .ok u => Join [s3.bucketPrefix, u.Path]
  else Join [s3.bucketPrefix, file.Path]

/-- The request `(*S3).Get` passes to `GetObject`. -/
def S3.getInput (s3 : S3) (file : File) : GetObjectInput :=
  { Bucket := s3.bucket, Key := Join [s3.bucketPrefix, file.Path] }

/-- Go `(*S3).Get`, writing to the writer handle `body`: how the call ends and the instance
afterwards. -/
def S3.Get (w : World) (s3 : S3) (file : File) (body : Nat) : Outcome × S3 :=
  match s3.Check w with
  | (some err, s) => (.returned (some err), s)
  | (none, s) =>
    match s.c with
    | none => (.panicked, s)
    | some c =>
      match w.GetObject c (s.getInput file) with
      | .error e => if e.asNoSuchKey then (.returned (some .ErrNoSuchKey), s)
                    else (.returned (some e.err), s)
      | .ok o =>
        match w.ioCopy body o.Body with
        | (_, some err) => (.returned (some err), s)
        | (wBytes, none) =>
          match o.ContentLength with
          | none => (.panicked, s)
          | some n =>
            if wBytes ≠ n then (.returned (some (.errorString "file size mismatch")), s)
            else (.returned none, s)

/-- The request `(*S3).Put` passes to `PutObject`. -/
def S3.putInput (w : World) (s3 : S3) (file : File) (body : Nat) : PutObjectInput :=
  let contentType := w.TypeByExtension (Ext file.Path)
  { Bucket := s3.bucket
    Key := s3.GetDest file
    ACL := "public-read"
    ChecksumAlgorithm := "SHA256"
    ChecksumSHA256 := file.ChSum.Base64
    Body := body
    ContentType := if contentType = [] then str "application/octet-stream" else contentType }

/-- Go `(*S3).Put`, reading from the reader handle `body`: how the call ends and the instance
afterwards. -/
def S3.Put (w : World) (s3 : S3) (file : File) (body : Nat) : Outcome × S3 :=
  match s3.Check w with
  | (some err, s) => (.returned (some err), s)
  | (none, s) =>
    match s.c with
    | none => (.panicked, s)
    | some c => (.returned (w.PutObject c (s.putInput w file body)), s)

/-! ## Hexadecimal digits, as the specification names them -/

/-- The characters `0-9`, `a-f`, `A-F`. -/
def isHexDigit (c : Byte) : Prop := c ∈ str "0123456789abcdefABCDEF"

instance (c : Byte) : Decidable (isHexDigit c) := by unfold isHexDigit; infer_instance

/-- The number a hexadecimal digit stands for: its place among `0123456789abcdef`, or among
`0123456789ABCDEF`. -/
def hexDigitValue (c : Byte) : Nat :=
  if c ∈ str "0123456789abcdef" then (str "0123456789abcdef").indexOf c
  else (str "0123456789ABCDEF").indexOf c

/-! ## Example data -/

/-- A transport with prefix `releases` and the given flatten option. -/
def exS3 (flatten : Bool) : S3 := { bucketPrefix := str "releases", flatten := flatten }

/-- A descriptor with the given path. -/
def exFile (p : String) : File := { Size := 0, Path := str p, ChSum := { sum := [] } }

/-- A fully configured instance that has no client handle yet. -/
def exConfigured : S3 :=
  ((New (str "http://localhost:9000") (str "charts")).SetCreds (str "key") (str "secret"))

/-- A world in which `config.LoadDefaultConfig` fails and nothing else is reached. -/
def exWorldNoConfig : World where
  LoadDefaultConfig := fun _ _ _ _ => .error (.external 1)
  GetObject := fun _ _ => .error { err := .external 2, asNoSuchKey := false }
  PutObject := fun _ _ => none
  ioCopy := fun _ _ => (0, none)
  TypeByExtension := fun _ => []

/-- A world whose store reports content length 5 for every object and whose `io.Copy`
writes as many bytes as the writer handle says. -/
def exWorld : World where
  LoadDefaultConfig := fun e r k s =>
    .ok { BaseEndpoint := e, Region := r, AccessKeyID := k, SecretAccessKey := s }
  GetObject := fun _ _ => .ok { Body := 0, ContentLength := some 5 }
  PutObject := fun _ _ => none
  ioCopy := fun dst _ => (dst, none)
  TypeByExtension := fun _ => []

/-- A fully configured transport with prefix `releases` and the given flatten option, as `main`
builds it: `Check` succeeds on it. -/
def exTransport (flatten : Bool) : S3 :=
  (exConfigured.SetPrefix (str "releases")).SetFlatten flatten

/-- A world whose store holds one object of 5 bytes, under the given key, and answers every
other key with the SDK's `NoSuchKey`; `io.Copy` writes the 5 bytes. -/
def exWorldHolding (key : GoString) : World where
  LoadDefaultConfig := fun e r k s =>
    .ok { BaseEndpoint := e, Region := r, AccessKeyID := k, SecretAccessKey := s }
  GetObject := fun _ inp =>
    if inp.Key = key then .ok { Body := 0, ContentLength := some 5 }
    else .error { err := .external 404, asNoSuchKey := true }
  PutObject := fun _ _ => none
  ioCopy := fun _ _ => (5, none)
  TypeByExtension := fun _ => []

/-! # Theorems -/

/-! ## path.Clean -/

/-- A path element that does not start with `/` has at least one byte. -/
theorem element_length_pos (path : GoString) (r : Nat) (hr : r < path.length)
    (hc : path[r]? ≠ some 47) :
    0 < ((path.drop r).takeWhile (fun c => c != 47)).length := by
  have hd : path.drop r = path[r] :: path.drop (r + 1) := List.drop_eq_getElem_cons hr
  have hne : path[r] ≠ 47 := by
    intro h
    apply hc
    simp [List.getElem?_eq_getElem hr, h]
  rw [hd, List.takeWhile_cons]
  simp [hne]

/-- The fuel of `cleanLoop` is enough: every round advances the read index, so with at least
`len(path) - r` rounds the loop ends by `r < n` failing, and more fuel changes nothing. -/
theorem cleanLoop_fuel (path : GoString) (rooted : Bool) :
    ∀ (f1 f2 r : Nat) (out : GoString) (dotdot : Nat),
      path.length - r ≤ f1 → path.length - r ≤ f2 →
      cleanLoop path rooted f1 r out dotdot = cleanLoop path rooted f2 r out dotdot := by
  intro f1
  induction f1 with
  | zero =>
    intro f2 r out dotdot h1 _
    cases f2 with
    | zero => rfl
    | succ f2 =>
      have : ¬ r < path.length := by omega
      simp [cleanLoop, this]
  | succ f1 ih =>
    intro f2 r out dotdot h1 h2
    cases f2 with
    | zero =>
      have : ¬ r < path.length := by omega
      simp [cleanLoop, this]
    | succ f2 =>
      unfold cleanLoop
      simp only
      split
      · rename_i hr
        split
        · exact ih _ _ _ _ (by omega) (by omega)
        · rename_i hslash
          split
          · exact ih _ _ _ _ (by omega) (by omega)
          · split
            · split
              · exact ih _ _ _ _ (by omega) (by omega)
              · split
                · exact ih _ _ _ _ (by omega) (by omega)
                · exact ih _ _ _ _ (by omega) (by omega)
            · have hpos := element_length_pos path r hr hslash
              exact ih _ _ _ _ (by omega) (by omega)
      · rfl

/-! ## Digest: hexadecimal form -/

set_option maxRecDepth 100000 in
/-- On every byte, `fromHexChar` succeeds exactly on the hexadecimal digits, with the value
of the digit. -/
theorem fromHexChar_spec :
    ∀ c : Byte, (fromHexChar c).map Fin.val =
      if isHexDigit c then some (hexDigitValue c) else none := by
  decide

set_option maxRecDepth 100000 in
/-- The two characters written for a byte decode to its high and low half, and these
recombine to the byte. -/
theorem encode_byte_decodes :
    ∀ v : Byte,
      fromHexChar (hextable.getD (v.val >>> 4) 0) = some (Fin.ofNat (v.val >>> 4)) ∧
      fromHexChar (hextable.getD (v.val &&& 0x0f) 0) = some (Fin.ofNat (v.val &&& 0x0f)) ∧
      (((Fin.ofNat (v.val >>> 4) : Byte) <<< (4 : Byte)) ||| Fin.ofNat (v.val &&& 0x0f)) = v := by
  decide

set_option maxRecDepth 100000 in
/-- A decoded digit is below 16. -/
theorem fromHexChar_lt :
    ∀ c : Byte, ((fromHexChar c).map Fin.val).getD 0 < 16 := by
  decide

set_option maxRecDepth 100000 in
/-- Two half bytes recombine without overlap. -/
theorem nibbles_val :
    ∀ a b : Fin 16,
      (((Fin.ofNat a.val : Byte) <<< (4 : Byte)) ||| (Fin.ofNat b.val : Byte)).val
        = 16 * a.val + b.val := by
  decide

theorem byte_ofNat_val (a : Byte) : (Fin.ofNat a.val : Byte) = a := by
  apply Fin.ext
  simp [Fin.ofNat]

/-- The byte `DecodeString` builds from two digits has the value the digits spell. -/
theorem decode_pair_val (p q a b : Byte) (hp : fromHexChar p = some a)
    (hq : fromHexChar q = some b) :
    ((a <<< (4 : Byte)) ||| b).val = 16 * hexDigitValue p + hexDigitValue q := by
  have ha := fromHexChar_lt p
  have hb := fromHexChar_lt q
  have hpv := fromHexChar_spec p
  have hqv := fromHexChar_spec q
  rw [hp] at ha hpv
  rw [hq] at hb hqv
  simp only [Option.map_some', Option.getD_some] at ha hb hpv hqv
  have hpa : hexDigitValue p = a.val := by
    by_cases h : isHexDigit p
    · simpa [h] using hpv.symm
    · simp [h] at hpv
  have hqb : hexDigitValue q = b.val := by
    by_cases h : isHexDigit q
    · simpa [h] using hqv.symm
    · simp [h] at hqv
  have h := nibbles_val ⟨a.val, ha⟩ ⟨b.val, hb⟩
  simp only [byte_ofNat_val] at h
  rw [h, hpa, hqb]

theorem fromHexChar_eq_none_iff (c : Byte) : fromHexChar c = none ↔ ¬ isHexDigit c := by
  have h := fromHexChar_spec c
  by_cases hc : isHexDigit c
  · simp only [hc, if_true] at h
    cases hf : fromHexChar c <;> simp_all
  · simp only [hc, if_false] at h
    cases hf : fromHexChar c <;> simp_all

/-- Induction over a string two characters at a time, as `hex.Decode` reads it. -/
theorem pairwise_induction {P : GoString → Prop} (h0 : P []) (h1 : ∀ p, P [p])
    (h2 : ∀ p q rest, P rest → P (p :: q :: rest)) : ∀ s, P s := by
  have key : ∀ s, P s ∧ ∀ c, P (c :: s) := by
    intro s
    induction s with
    | nil => exact ⟨h0, h1⟩
    | cons c t ih => exact ⟨ih.2 c, fun d => h2 d c t ih.1⟩
  exact fun s => (key s).1

/-- The `hex.DecodeString` model reports no error exactly on strings of even length made of
hexadecimal digits only. -/
theorem DecodeString_ok_iff (s : GoString) :
    (DecodeString s).2 = none ↔ (s.length % 2 = 0 ∧ ∀ c ∈ s, isHexDigit c) := by
  induction s using pairwise_induction with
  | h0 => simp [DecodeString]
  | h1 p =>
    cases hp : fromHexChar p <;> simp [DecodeString, hp]
  | h2 p q rest ih =>
    cases hp : fromHexChar p with
    | none =>
      have := (fromHexChar_eq_none_iff p).1 hp
      simp [DecodeString, hp, this]
    | some a =>
      have hpd : isHexDigit p := by
        by_contra h
        rw [(fromHexChar_eq_none_iff p).2 h] at hp
        cases hp
      cases hq : fromHexChar q with
      | none =>
        have := (fromHexChar_eq_none_iff q).1 hq
        simp [DecodeString, hp, hq, this]
      | some b =>
        have hqd : isHexDigit q := by
          by_contra h
          rw [(fromHexChar_eq_none_iff q).2 h] at hq
          cases hq
        simp only [DecodeString, hp, hq, ih, List.length_cons, List.mem_cons, forall_eq_or_imp,
          hpd, hqd, true_and]
        constructor
        · rintro ⟨h, hall⟩
          exact ⟨by omega, hall⟩
        · rintro ⟨h, hall⟩
          exact ⟨by omega, hall⟩

/-- When the `hex.DecodeString` model reports no error, it has decoded `len(s)/2` bytes, the
`i`-th of which is spelt by the characters `2i` and `2i+1` of `s`. -/
theorem DecodeString_ok_bytes (s : GoString) (hok : (DecodeString s).2 = none) :
    (DecodeString s).1.length = s.length / 2 ∧
    ∀ i, i < s.length / 2 →
      ((DecodeString s).1.getD i 0).val
        = 16 * hexDigitValue (s.getD (2 * i) 0) + hexDigitValue (s.getD (2 * i + 1) 0) := by
  induction s using pairwise_induction with
  | h0 => simp [DecodeString]
  | h1 p =>
    cases hp : fromHexChar p <;> simp [DecodeString, hp]
  | h2 p q rest ih =>
    cases hp : fromHexChar p with
    | none => simp [DecodeString, hp] at hok
    | some a =>
      cases hq : fromHexChar q with
      | none => simp [DecodeString, hp, hq] at hok
      | some b =>
        simp only [DecodeString, hp, hq] at hok ⊢
        obtain ⟨hlen, hval⟩ := ih hok
        constructor
        · simp only [List.length_cons, hlen]
          omega
        · intro i hi
          cases i with
          | zero =>
            simpa using decode_pair_val p q a b hp hq
          | succ j =>
            have hj : j < rest.length / 2 := by
              simp only [List.length_cons] at hi
              omega
            have e1 : 2 * (j + 1) = (2 * j) + 1 + 1 := by ring
            have e2 : 2 * (j + 1) + 1 = (2 * j + 1) + 1 + 1 := by ring
            rw [e2, e1]
            simpa using hval j hj

/-- Decoding what `hex.EncodeToString` wrote gives the bytes back, without error. -/
theorem DecodeString_EncodeToString (l : List Byte) :
    DecodeString (EncodeToString l) = (l, none) := by
  induction l with
  | nil => rfl
  | cons v rest ih =>
    obtain ⟨h1, h2, h3⟩ := encode_byte_decodes v
    simp only [EncodeToString, DecodeString, h1, h2, ih, h3]

/-- C6: for every digest `d`, `NewDigestString(d.String())` returns no error and a digest
with the bytes of `d`. -/
theorem NewDigestString_String (d : Digest) :
    NewDigestString d.String = (d, none) := by
  simp only [NewDigestString, Digest.String, DecodeString_EncodeToString]

/-- C7: `NewDigestString(s)` returns an error exactly when `s` has odd length or holds a
character outside `0-9`, `a-f`, `A-F`, and then the digest is empty; otherwise the digest
holds `len(s)/2` bytes, the `i`-th spelt by the characters `2i` and `2i+1` of `s`. -/
theorem NewDigestString_error_iff (s : GoString) :
    ((NewDigestString s).2 ≠ none ↔ (s.length % 2 = 1 ∨ ∃ c ∈ s, ¬ isHexDigit c)) ∧
    ((NewDigestString s).2 ≠ none → (NewDigestString s).1 = { sum := [] }) ∧
    ((NewDigestString s).2 = none →
      (NewDigestString s).1.sum.length = s.length / 2 ∧
      ∀ i, i < s.length / 2 →
        ((NewDigestString s).1.sum.getD i 0).val
          = 16 * hexDigitValue (s.getD (2 * i) 0) + hexDigitValue (s.getD (2 * i + 1) 0)) := by
  have hiff := DecodeString_ok_iff s
  have hbytes := DecodeString_ok_bytes s
  cases hd : DecodeString s with
  | mk d err =>
    rw [hd] at hiff hbytes
    cases err with
    | none =>
      have h := hiff.1 rfl
      refine ⟨?_, ?_, ?_⟩
      · simp only [NewDigestString, hd, ne_eq, not_true_eq_false, false_iff, not_or, not_exists,
          not_and, not_not]
        exact ⟨by omega, h.2⟩
      · simp [NewDigestString, hd]
      · intro _
        simpa [NewDigestString, hd] using hbytes rfl
    | some e =>
      have h : ¬ (s.length % 2 = 0 ∧ ∀ c ∈ s, isHexDigit c) := fun h => by
        have := hiff.2 h
        simp at this
      refine ⟨?_, ?_, ?_⟩
      · simp only [NewDigestString, hd, ne_eq, reduceCtorEq, not_false_eq_true, true_iff]
        by_cases hl : s.length % 2 = 0
        · right
          by_contra hne
          exact h ⟨hl, fun c hc => by
            by_contra hcd
            exact hne ⟨c, hc, hcd⟩⟩
        · left
          omega
      · simp [NewDigestString, hd]
      · simp [NewDigestString, hd]

/-- C6 on the digest `00 ff 10 ab`: its hexadecimal form is `00ff10ab`, which decodes back to
the same bytes. -/
theorem NewDigestString_String_witness :
    Digest.String { sum := [0, 255, 16, 171] } = str "00ff10ab" ∧
    NewDigestString (str "00ff10ab") = ({ sum := [0, 255, 16, 171] }, none) :=
  ⟨by decide, NewDigestString_String { sum := [0, 255, 16, 171] }⟩

/-- C7 on concrete strings: `0g` and `abc` are refused with the empty digest, `00fF10aB` is
accepted; an invalid character is reported before a bad length. -/
theorem NewDigestString_error_iff_witness :
    (NewDigestString (str "0g")).2 ≠ none ∧
    NewDigestString (str "0g") = ({ sum := [] }, some (.hex (.InvalidByteError 103))) ∧
    NewDigestString (str "abc") = ({ sum := [] }, some (.hex .ErrLength)) ∧
    NewDigestString (str "abg") = ({ sum := [] }, some (.hex (.InvalidByteError 103))) ∧
    NewDigestString (str "00fF10aB") = ({ sum := [0, 255, 16, 171] }, none) :=
  ⟨(NewDigestString_error_iff (str "0g")).1.2 (Or.inr ⟨103, by decide, by decide⟩),
   by decide, by decide, by decide, by decide⟩

/-! ## Copy -/

/-- C1: for every pair of results of the two goroutines and either delivery order, `Copy` returns nil exactly
when both results are nil; its result is one of the two results; and a non-nil result is the
first non-nil value in delivery order. -/
theorem Copy_result (order : Delivery) (ePut eGet : Option Error) :
    (Copy order ePut eGet = none ↔ ePut = none ∧ eGet = none) ∧
    (Copy order ePut eGet = ePut ∨ Copy order ePut eGet = eGet) ∧
    (∀ e, Copy order ePut eGet = some e →
      ∃ pre post, delivered order ePut eGet = pre ++ some e :: post ∧ ∀ x ∈ pre, x = none) := by
  refine ⟨?_, ?_, ?_⟩
  · cases order <;> cases ePut <;> cases eGet <;> simp [Copy, delivered, drain]
  · cases order <;> cases ePut <;> cases eGet <;> simp [Copy, delivered, drain]
  · intro e he
    cases order <;> cases ePut <;> cases eGet <;>
      simp only [Copy, delivered, drain, ne_eq, not_true_eq_false, not_false_eq_true,
        if_true, if_false, reduceCtorEq, Option.some.injEq] at he ⊢
    all_goals subst he
    all_goals first
      | exact ⟨[], _, rfl, by simp⟩
      | exact ⟨[none], _, rfl, by simp⟩

/-- C1 on concrete results: two nil results give nil; with two errors the one delivered first
is returned, in either order; one error alone is returned. -/
theorem Copy_result_witness :
    Copy .putFirst none none = none ∧
    Copy .putFirst (some (.errorString "file size mismatch")) (some .ErrNoSuchKey)
      = some (.errorString "file size mismatch") ∧
    Copy .getFirst (some (.errorString "file size mismatch")) (some .ErrNoSuchKey)
      = some .ErrNoSuchKey ∧
    Copy .getFirst (some (.external 1)) none = some (.external 1) :=
  ⟨(Copy_result .putFirst none none).1.2 ⟨rfl, rfl⟩, rfl, rfl, rfl⟩

/-! ## GetDest -/

/-- C3: with flatten unset and a path that starts with none of `http://`, `https://`,
`oci://`, `GetDest` is `path.Join(bucketPrefix, p)`. -/
theorem GetDest_structure_preserving (s3 : S3) (file : File)
    (hflat : s3.flatten = false)
    (hhttp : HasPrefix file.Path (str "http://") = false)
    (hhttps : HasPrefix file.Path (str "https://") = false)
    (hoci : HasPrefix file.Path (str "oci://") = false) :
    s3.GetDest file = Join [s3.bucketPrefix, file.Path] := by
  simp [S3.GetDest, hflat, hhttp, hhttps, hoci]

/-- C3 at prefix `releases`, path `charts/app/index.yaml`: the key is
`releases/charts/app/index.yaml`. -/
theorem GetDest_structure_preserving_witness :
    (exS3 false).GetDest (exFile "charts/app/index.yaml")
      = str "releases/charts/app/index.yaml" :=
  (GetDest_structure_preserving (exS3 false) (exFile "charts/app/index.yaml")
    rfl (by decide) (by decide) (by decide)).trans (by decide)

/-- C4: with flatten set, `GetDest` is `path.Join(bucketPrefix, path.Base(p))` for every
path, with or without a scheme. -/
theorem GetDest_flatten (s3 : S3) (file : File) (hflat : s3.flatten = true) :
    s3.GetDest file = Join [s3.bucketPrefix, Base file.Path] := by
  simp [S3.GetDest, hflat]

/-- C4 at prefix `releases`: paths `charts/app/index.yaml` and
`https://example.com/charts/app/index.yaml` both give `releases/index.yaml`. -/
theorem GetDest_flatten_witness :
    (exS3 true).GetDest (exFile "charts/app/index.yaml") = str "releases/index.yaml" ∧
    (exS3 true).GetDest (exFile "https://example.com/charts/app/index.yaml")
      = str "releases/index.yaml" :=
  ⟨(GetDest_flatten (exS3 true) (exFile "charts/app/index.yaml") rfl).trans (by decide),
   (GetDest_flatten (exS3 true) (exFile "https://example.com/charts/app/index.yaml") rfl).trans
    (by decide)⟩

/-- C5: with flatten unset and a path that starts with `http://`, `https://` or `oci://`,
`GetDest` is the prefix joined with `URL.Path` when `url.Parse` succeeds, and the prefix
joined with `path.Base(p)` when it fails. -/
theorem GetDest_absolute_locator (s3 : S3) (file : File)
    (hflat : s3.flatten = false)
    (hscheme : HasPrefix file.Path (str "http://") = true ∨
      HasPrefix file.Path (str "https://") = true ∨ HasPrefix file.Path (str "oci://") = true) :
    (∀ u, Parse file.Path = .ok u → s3.GetDest file = Join [s3.bucketPrefix, u.Path]) ∧
    (∀ e, Parse file.Path = .error e →
      s3.GetDest file = Join [s3.bucketPrefix, Base file.Path]) := by
  have hp : (HasPrefix file.Path (str "http://") || HasPrefix file.Path (str "https://") ||
      HasPrefix file.Path (str "oci://")) = true := by
    rcases hscheme with h | h | h <;> simp [h]
  constructor
  · intro u hu
    simp only [S3.GetDest, hflat, hp, hu, Bool.false_eq_true, if_false, if_true]
  · intro e he
    simp only [S3.GetDest, hflat, hp, he, Bool.false_eq_true, if_false, if_true]

/-- C5 at prefix `releases`: `https://example.com/a/b/file.tgz` parses and gives
`releases/a/b/file.tgz` (a query and a fragment change nothing); `http://[::1/x` does not
parse and gives the flattened `releases/x`. -/
theorem GetDest_absolute_locator_witness :
    (exS3 false).GetDest (exFile "https://example.com/a/b/file.tgz")
      = str "releases/a/b/file.tgz" ∧
    (exS3 false).GetDest (exFile "https://example.com/a/b/file.tgz?x=1#top")
      = str "releases/a/b/file.tgz" ∧
    (exS3 false).GetDest (exFile "http://[::1/x") = str "releases/x" :=
  ⟨((GetDest_absolute_locator (exS3 false) (exFile "https://example.com/a/b/file.tgz") rfl
      (Or.inr (Or.inl (by decide)))).1
      { Scheme := str "https", Host := str "example.com", Path := str "/a/b/file.tgz" }
      rfl).trans (by decide),
   ((GetDest_absolute_locator (exS3 false) (exFile "https://example.com/a/b/file.tgz?x=1#top")
      rfl (Or.inr (Or.inl (by decide)))).1
      { Scheme := str "https", Host := str "example.com", Path := str "/a/b/file.tgz",
        RawQuery := str "x=1", Fragment := str "top" }
      rfl).trans (by decide),
   ((GetDest_absolute_locator (exS3 false) (exFile "http://[::1/x") rfl
      (Or.inl (by decide))).2 .missingBracketInHost rfl).trans (by decide)⟩

/-! ## Get, Put, Check -/

/-- Both `Connect` and `Check` change nothing but the client handle. -/
theorem Check_keeps_settings (w : World) (s3 : S3) :
    (s3.Check w).2.bucket = s3.bucket ∧ (s3.Check w).2.bucketPrefix = s3.bucketPrefix ∧
    (s3.Check w).2.flatten = s3.flatten := by
  unfold S3.Check S3.Connect
  split
  · split
    · simp
    · split <;> simp
  · simp

/-- What `Check` does in general: an existing handle is left untouched and nil returned;
without a handle, a missing parameter gives an error; otherwise the handle is set when
`config.LoadDefaultConfig` succeeds, and nil is returned without a handle when it fails. -/
theorem Check_cases (w : World) (s3 : S3) :
    (∀ c, s3.c = some c → s3.Check w = (none, s3)) ∧
    (s3.c = none →
      (s3.endpoint = [] ∨ s3.bucket = [] ∨ s3.accessKeyID = [] ∨ s3.secretAccessKey = []) →
      s3.Check w = (some (.errorString "Missing required parameters"), s3)) ∧
    (s3.c = none →
      ¬ (s3.endpoint = [] ∨ s3.bucket = [] ∨ s3.accessKeyID = [] ∨ s3.secretAccessKey = []) →
      (∀ cfg, w.LoadDefaultConfig s3.endpoint s3.region s3.accessKeyID s3.secretAccessKey
          = .ok cfg →
        s3.Check w = (none, { s3 with c := some { cfg := cfg, UsePathStyle := s3.pathStyle } })) ∧
      (∀ e, w.LoadDefaultConfig s3.endpoint s3.region s3.accessKeyID s3.secretAccessKey
          = .error e →
        s3.Check w = (none, s3))) := by
  refine ⟨?_, ?_, ?_⟩
  · intro c hc
    simp [S3.Check, hc]
  · intro hc hmiss
    simp [S3.Check, S3.Connect, hc, hmiss]
  · intro hc hpresent
    constructor
    · intro cfg hcfg
      simp [S3.Check, S3.Connect, hc, hpresent, hcfg]
    · intro e he
      simp [S3.Check, S3.Connect, hc, hpresent, he]

/-- C8: when the store returns an object of reported content length `n` and `io.Copy` streams
the body without error, writing `wBytes` bytes, `Get` returns nil if `wBytes = n` and the
size-mismatch error otherwise; when `io.Copy` fails, `Get` returns that error whatever the
content length is, so the lengths are compared only after the copy has ended. -/
theorem Get_size_mismatch (w : World) (s3 s : S3) (file : File) (body : Nat) (c : Client)
    (o : GetObjectOutput)
    (hcheck : s3.Check w = (none, s)) (hclient : s.c = some c)
    (hobject : w.GetObject c (s.getInput file) = .ok o) :
    (∀ wBytes n, w.ioCopy body o.Body = (wBytes, none) → o.ContentLength = some n →
      (s3.Get w file body).1 =
        .returned (if wBytes = n then none else some (.errorString "file size mismatch"))) ∧
    (∀ wBytes err, w.ioCopy body o.Body = (wBytes, some err) →
      (s3.Get w file body).1 = .returned (some err)) := by
  constructor
  · intro wBytes n hcopy hlen
    simp only [S3.Get, hcheck, hclient, hobject, hcopy, hlen]
    by_cases h : wBytes = n <;> simp [h]
  · intro wBytes err hcopy
    simp only [S3.Get, hcheck, hclient, hobject, hcopy]

/-- C8 on a store that reports 5 bytes: a copy of 5 bytes ends in nil, a copy of 3 bytes in
the size-mismatch error. -/
theorem Get_size_mismatch_witness :
    (exConfigured.Get exWorld (exFile "index.yaml") 5).1 = .returned none ∧
    (exConfigured.Get exWorld (exFile "index.yaml") 3).1 =
      .returned (some (.errorString "file size mismatch")) :=
  ⟨(Get_size_mismatch exWorld exConfigured (exConfigured.Check exWorld).2 (exFile "index.yaml") 5
      { cfg := { BaseEndpoint := str "http://localhost:9000", Region := [],
                 AccessKeyID := str "key", SecretAccessKey := str "secret" },
        UsePathStyle := false }
      { Body := 0, ContentLength := some 5 } (by decide) (by decide) rfl).1 5 5 rfl rfl,
   (Get_size_mismatch exWorld exConfigured (exConfigured.Check exWorld).2 (exFile "index.yaml") 3
      { cfg := { BaseEndpoint := str "http://localhost:9000", Region := [],
                 AccessKeyID := str "key", SecretAccessKey := str "secret" },
        UsePathStyle := false }
      { Body := 0, ContentLength := some 5 } (by decide) (by decide) rfl).1 3 5 rfl rfl⟩

/-- C9, the failing input: on a fully configured instance without a handle, when
`config.LoadDefaultConfig` fails, `Check` returns nil and leaves the instance without a
handle, and `Get` and `Put` then reach the backend call on a nil client. -/
theorem Check_nil_without_handle :
    exConfigured.c = none ∧
    exConfigured.Check exWorldNoConfig = (none, exConfigured) ∧
    (exConfigured.Check exWorldNoConfig).2.c = none ∧
    (exConfigured.Get exWorldNoConfig (exFile "index.yaml") 0).1 = .panicked ∧
    (exConfigured.Put exWorldNoConfig (exFile "index.yaml") 0).1 = .panicked := by
  decide

/-- A non-empty path without `/` is its own `path.Base`. -/
theorem Base_eq_self (p : GoString) (hne : p ≠ []) (hslash : (47 : Byte) ∉ p) :
    Base p = p := by
  have hrev : ∀ x ∈ p.reverse, x ≠ (47 : Byte) := by
    intro x hx h
    exact hslash (h ▸ List.mem_reverse.1 hx)
  have hdrop : p.reverse.dropWhile (fun c => c == 47) = p.reverse := by
    cases hr : p.reverse with
    | nil => rfl
    | cons a t =>
      have ha : a ≠ (47 : Byte) := hrev a (by simp [hr])
      simp [List.dropWhile_cons, ha]
  have htake : p.reverse.takeWhile (fun c => c != 47) = p.reverse := by
    rw [List.takeWhile_eq_self_iff]
    intro x hx
    simpa using hrev x hx
  simp only [Base, hne, if_false, hdrop, List.reverse_reverse, htake]

/-- C10 as stated fails, on fully configured transports with prefix `releases` whose `Check`
succeeds.  With flatten set and path `charts/app/index.yaml`, `Get` requests
`releases/charts/app/index.yaml` while `Put` stores under `releases/index.yaml`: `Put`
returns nil, and in a store holding the object under the key `Put` used, `Get` with the same
descriptor returns `ErrNoSuchKey`.  With flatten unset and path
`https://example.com/a/b/file.tgz`, `Get` requests `releases/https:/example.com/a/b/file.tgz`
while `Put` stores under `releases/a/b/file.tgz`. -/
theorem Get_key_ne_Put_key :
    ((exTransport true).Check exWorld).1 = none ∧
    ((exTransport true).Check exWorld).2.c ≠ none ∧
    (((exTransport true).Check exWorld).2.getInput (exFile "charts/app/index.yaml")).Key
      = str "releases/charts/app/index.yaml" ∧
    (((exTransport true).Check exWorld).2.putInput exWorld (exFile "charts/app/index.yaml") 0).Key
      = str "releases/index.yaml" ∧
    (((exTransport true).Check exWorld).2.getInput (exFile "charts/app/index.yaml")).Key ≠
      (((exTransport true).Check exWorld).2.putInput exWorld
        (exFile "charts/app/index.yaml") 0).Key ∧
    ((exTransport true).Put (exWorldHolding (str "releases/index.yaml"))
      (exFile "charts/app/index.yaml") 0).1 = .returned none ∧
    ((exTransport true).Get (exWorldHolding (str "releases/index.yaml"))
      (exFile "charts/app/index.yaml") 0).1 = .returned (some .ErrNoSuchKey) ∧
    ((exTransport false).Check exWorld).1 = none ∧
    ((exTransport false).Check exWorld).2.c ≠ none ∧
    (((exTransport false).Check exWorld).2.getInput
        (exFile "https://example.com/a/b/file.tgz")).Key
      = str "releases/https:/example.com/a/b/file.tgz" ∧
    (((exTransport false).Check exWorld).2.putInput exWorld
        (exFile "https://example.com/a/b/file.tgz") 0).Key
      = str "releases/a/b/file.tgz" := by
  decide

/-- C10 amended.  For every world, instance and descriptor, the request `Get` builds after
`Check` has the key `path.Join(bucketPrefix, f.Path)` and the request `Put` builds after
`Check` has the key `GetDest(f)`.  The two keys are equal when flatten is unset and the path
starts with none of `http://`, `https://`, `oci://`, and when flatten is set and the path is
its own `path.Base`, as every non-empty path without `/` is. -/
theorem Get_key_eq_Put_key (w : World) (s3 : S3) (f : File) (rd : Nat) :
    ((s3.Check w).2.getInput f).Key = Join [s3.bucketPrefix, f.Path] ∧
    ((s3.Check w).2.putInput w f rd).Key = s3.GetDest f ∧
    (s3.flatten = false →
      HasPrefix f.Path (str "http://") = false →
      HasPrefix f.Path (str "https://") = false →
      HasPrefix f.Path (str "oci://") = false →
      ((s3.Check w).2.getInput f).Key = ((s3.Check w).2.putInput w f rd).Key) ∧
    (s3.flatten = true → Base f.Path = f.Path →
      ((s3.Check w).2.getInput f).Key = ((s3.Check w).2.putInput w f rd).Key) ∧
    (f.Path ≠ [] → (47 : Byte) ∉ f.Path → Base f.Path = f.Path) := by
  obtain ⟨_, hpre, hfl⟩ := Check_keeps_settings w s3
  have hget : ((s3.Check w).2.getInput f).Key = Join [s3.bucketPrefix, f.Path] := by
    simp [S3.getInput, hpre]
  have hput : ((s3.Check w).2.putInput w f rd).Key = s3.GetDest f := by
    simp [S3.putInput, S3.GetDest, hpre, hfl]
  refine ⟨hget, hput, ?_, ?_, Base_eq_self f.Path⟩
  · intro hflat hhttp hhttps hoci
    rw [hget, hput]
    simp [S3.GetDest, hflat, hhttp, hhttps, hoci]
  · intro hflat hbase
    rw [hget, hput]
    simp [S3.GetDest, hflat, hbase]

/-- C10 amended, at the descriptor of `main` (path `index.yaml`) on fully configured
transports with prefix `releases`: `Check` succeeds, and with flatten unset as with flatten
set both keys are `releases/index.yaml`; in a store holding the object under that key, `Put`
and then `Get` with the same descriptor both return nil. -/
theorem Get_key_eq_Put_key_witness :
    (((exTransport false).Check exWorld).1 = none ∧
      ((exTransport false).Check exWorld).2.c ≠ none ∧
      (((exTransport false).Check exWorld).2.getInput (exFile "index.yaml")).Key
        = str "releases/index.yaml" ∧
      (((exTransport false).Check exWorld).2.putInput exWorld (exFile "index.yaml") 0).Key
        = str "releases/index.yaml") ∧
    (((exTransport true).Check exWorld).1 = none ∧
      ((exTransport true).Check exWorld).2.c ≠ none ∧
      (((exTransport true).Check exWorld).2.getInput (exFile "index.yaml")).Key
        = str "releases/index.yaml" ∧
      (((exTransport true).Check exWorld).2.putInput exWorld (exFile "index.yaml") 0).Key
        = str "releases/index.yaml") ∧
    ((exTransport true).Put (exWorldHolding (str "releases/index.yaml"))
      (exFile "index.yaml") 0).1 = .returned none ∧
    ((exTransport true).Get (exWorldHolding (str "releases/index.yaml"))
      (exFile "index.yaml") 0).1 = .returned none :=
  have hu := Get_key_eq_Put_key exWorld (exTransport false) (exFile "index.yaml") 0
  have hf := Get_key_eq_Put_key exWorld (exTransport true) (exFile "index.yaml") 0
  have eu := hu.2.2.1 rfl (by decide) (by decide) (by decide)
  have ef := hf.2.2.2.1 rfl (hf.2.2.2.2 (by decide) (by decide))
  ⟨⟨by decide, by decide, hu.1.trans (by decide), (eu.symm.trans hu.1).trans (by decide)⟩,
   ⟨by decide, by decide, hf.1.trans (by decide), (ef.symm.trans hf.1).trans (by decide)⟩,
   by decide, by decide⟩

end VkS3
